import Mathlib

/-!
Shallow embedding of the umuxpkt packet format engine (src/main.rs): the
8-byte TLV codec, the 16-byte fixed header codec (HeaderNoTLV), the header
composer (Header) and the stateful packet assembler (PacketMaker).

Modelling conventions:
- machine integers are Nat, with reduction modulo the relevant power of two
  written explicitly wherever the source reads or masks machine words
  (big-endian byte extraction, the 48-bit timestamp mask, u32 wrap);
- byte buffers are List Nat (each entry one byte);
- every fallible operation of the source (unwrap on conversion, slice index
  out of range, the unknown-tag and bad-length aborts in TLV decoding)
  is embedded as a typed error in PktError, using the error taxonomy the
  format documentation gives for those failure points.
-/

namespace Umux

set_option autoImplicit false

/-- Error taxonomy: one constructor per fallible point of the source. -/
inductive PktError where
  /-- fewer than 16 bytes available when decoding the fixed header. -/
  | truncatedHeader
  /-- declared headerlength below 16 (usize subtraction would underflow). -/
  | headerLengthUnderflow
  /-- computed header length does not fit the one-byte field (above 255). -/
  | headerLengthOverflow
  /-- payload byte count does not fit the two-byte field (above 65535). -/
  | payloadLengthOverflow
  /-- declared TLV section longer than the bytes that follow the fixed header. -/
  | tlvSectionOutOfRange
  /-- tag byte matches no defined TLV variant. -/
  | unknownTlvTag (tag : Nat)
  /-- PayloadLabel TLV with a length-unit byte other than 1. -/
  | unsupportedTlvLength
deriving DecidableEq

/-- const HEADER_MAGIC: u32 = 0x810b00ff. -/
def HEADER_MAGIC : Nat := 0x810b00ff

/-- const HEADER_VERSION: u8 = 1. -/
def HEADER_VERSION : Nat := 1

/-- Big-endian bytes of a u16 value. -/
def be16 (x : Nat) : List Nat :=
  [x / 0x100 % 0x100, x % 0x100]

/-- Big-endian bytes of a u32 value. -/
def be32 (x : Nat) : List Nat :=
  [x / 0x1000000 % 0x100, x / 0x10000 % 0x100, x / 0x100 % 0x100, x % 0x100]

/-- Bytes 2..8 of the big-endian u64 representation of x, i.e. the low six
bytes: what TLV::write_to emits for a Timestamp. -/
def be48 (x : Nat) : List Nat :=
  [x / 0x10000000000 % 0x100, x / 0x100000000 % 0x100, x / 0x1000000 % 0x100,
   x / 0x10000 % 0x100, x / 0x100 % 0x100, x % 0x100]

/-- enum TLV of src/main.rs. Value payloads are Nat standing for the u64,
u16 triple, u32 and six u8 of the Rust variants. -/
inductive TLV where
  | Timestamp (x : Nat)
  | Null
  | Payloadshape (a b c : Nat)
  | ChannelOffset (x : Nat)
  | PayloadLabel6Char (c0 c1 c2 c3 c4 c5 : Nat)
deriving DecidableEq

/-- TLV::len8bytes: each defined variant occupies one 8-byte slot. -/
def TLV.len8bytes : TLV → Nat
  | .Timestamp _ => 1
  | .Null => 1
  | .Payloadshape _ _ _ => 1
  | .ChannelOffset _ => 1
  | .PayloadLabel6Char _ _ _ _ _ _ => 1

/-- TLV::len: encoded length in bytes. -/
def TLV.len (t : TLV) : Nat := t.len8bytes * 8

/-- TLV::tag. -/
def TLV.tag : TLV → Nat
  | .Timestamp _ => 0x11
  | .Null => 0x00
  | .Payloadshape _ _ _ => 0x22
  | .ChannelOffset _ => 0x23
  | .PayloadLabel6Char _ _ _ _ _ _ => 0x29

/-- TLV::write_to: tag byte, length-unit byte, then the six value bytes. -/
def TLV.write_to (t : TLV) : List Nat :=
  [t.tag, t.len8bytes] ++
    match t with
    | .Timestamp x => be48 x
    | .Null => [0, 0, 0, 0, 0, 0]
    | .Payloadshape a b c => be16 a ++ be16 b ++ be16 c
    | .ChannelOffset x => [0, 0] ++ be32 x
    | .PayloadLabel6Char c0 c1 c2 c3 c4 c5 => [c0, c1, c2, c3, c4, c5]

/-- TLV::as_bytes. -/
def TLV.as_bytes (t : TLV) : List Nat := t.write_to

/-- TLV::try_from_bytes: under 8 bytes yields none with the untouched buffer;
otherwise the 8-byte slot is read and the tag dispatched exactly as the
source match does (the Timestamp branch reads the whole slot as a big-endian
u64 and masks with 0x0000FFFFFFFFFFFF; the source aborts on an unknown tag
and on a PayloadLabel length-unit byte other than 1, embedded here as the
two decode errors). -/
def TLV.try_from_bytes : List Nat → Except PktError (Option TLV × List Nat)
  | b0 :: b1 :: b2 :: b3 :: b4 :: b5 :: b6 :: b7 :: rest =>
    if b0 = 0x00 then
      .ok (some .Null, rest)
    else if b0 = 0x11 then
      .ok (some (.Timestamp ((b0 * 0x100000000000000 + b1 * 0x1000000000000 +
        b2 * 0x10000000000 + b3 * 0x100000000 + b4 * 0x1000000 + b5 * 0x10000 +
        b6 * 0x100 + b7) % 0x1000000000000)), rest)
    else if b0 = 0x22 then
      .ok (some (.Payloadshape (b2 * 0x100 + b3) (b4 * 0x100 + b5) (b6 * 0x100 + b7)), rest)
    else if b0 = 0x23 then
      .ok (some (.ChannelOffset (b4 * 0x1000000 + b5 * 0x10000 + b6 * 0x100 + b7)), rest)
    else if b0 = 0x29 then
      if b1 = 1 then .ok (some (.PayloadLabel6Char b2 b3 b4 b5 b6 b7), rest)
      else .error .unsupportedTlvLength
    else
      .error (.unknownTlvTag b0)
  | buf => .ok (none, buf)

/-- TLV::vec_from_bytes: decode TLVs until try_from_bytes yields none.
try_from_bytes consumes exactly 8 bytes whenever it yields a TLV, so the
loop is structural recursion on the list tail; a decode error propagates. -/
def TLV.vec_from_bytes : List Nat → Except PktError (List TLV)
  | b0 :: b1 :: b2 :: b3 :: b4 :: b5 :: b6 :: b7 :: rest =>
    match TLV.try_from_bytes (b0 :: b1 :: b2 :: b3 :: b4 :: b5 :: b6 :: b7 :: rest) with
    | .error e => .error e
    | .ok (none, _) => .ok []
    | .ok (some t, _) =>
      match TLV.vec_from_bytes rest with
      | .error e => .error e
      | .ok v => .ok (t :: v)
  | _ => .ok []

/-- struct HeaderNoTLV: the 16-byte fixed header, all multi-byte fields
big-endian on the wire. -/
structure HeaderNoTLV where
  version : Nat
  headerlength : Nat
  payloadlength : Nat
  magic : Nat
  srcid : Nat
  seqno : Nat
deriving DecidableEq

/-- HeaderNoTLV::len: the fixed header is 16 bytes. -/
def HeaderNoTLV.len : Nat := 16

/-- HeaderNoTLV::as_bytes (BytesCast on the repr(C) struct): the fields in
declaration order, multi-byte fields big-endian. -/
def HeaderNoTLV.as_bytes (h : HeaderNoTLV) : List Nat :=
  [h.version, h.headerlength] ++ be16 h.payloadlength ++ be32 h.magic ++
    be32 h.srcid ++ be32 h.seqno

/-- HeaderNoTLV::from_bytes (BytesCast): needs at least 16 bytes and returns
the parsed struct with the remaining bytes; failing on a short buffer is the
truncated-header error. -/
def HeaderNoTLV.from_bytes : List Nat → Except PktError (HeaderNoTLV × List Nat)
  | v :: hl :: p0 :: p1 :: m0 :: m1 :: m2 :: m3 :: s0 :: s1 :: s2 :: s3 ::
      q0 :: q1 :: q2 :: q3 :: rest =>
    .ok (⟨v, hl, p0 * 0x100 + p1,
          m0 * 0x1000000 + m1 * 0x10000 + m2 * 0x100 + m3,
          s0 * 0x1000000 + s1 * 0x10000 + s2 * 0x100 + s3,
          q0 * 0x1000000 + q1 * 0x10000 + q2 * 0x100 + q3⟩, rest)
  | _ => .error .truncatedHeader

/-- struct Header: fixed part plus the ordered TLV list. -/
structure Header where
  header_no_tlv : HeaderNoTLV
  tlvs : List TLV
deriving DecidableEq

/-- Header::len: 16 plus the sum of the TLV encoded lengths. -/
def Header.len (h : Header) : Nat :=
  (h.tlvs.map TLV.len).sum + HeaderNoTLV.len

/-- Header::write_to: recomputes the headerlength byte from the current TLV
list (u8::try_from(len).unwrap() is the overflow check), then emits the fixed
header followed by each TLV in order. -/
def Header.write_to (h : Header) : Except PktError (List Nat) :=
  if h.len ≤ 255 then
    .ok (HeaderNoTLV.as_bytes { h.header_no_tlv with headerlength := h.len } ++
      (h.tlvs.map TLV.write_to).flatten)
  else .error .headerLengthOverflow

/-- Header::as_bytes: write_to into a fresh buffer. -/
def Header.as_bytes (h : Header) : Except PktError (List Nat) := h.write_to

/-- Header::from_bytes: parse the fixed header, compute the TLV section
length as headerlength - 16 (the usize subtraction underflows when
headerlength is below 16), slice exactly that many bytes of the remainder
(the slice panics when fewer remain) and decode them as a TLV sequence. -/
def Header.from_bytes (buf : List Nat) : Except PktError Header :=
  match HeaderNoTLV.from_bytes buf with
  | .error e => .error e
  | .ok (header_no_tlv, rest) =>
    if header_no_tlv.headerlength < HeaderNoTLV.len then
      .error .headerLengthUnderflow
    else
      let tlv_len := header_no_tlv.headerlength - HeaderNoTLV.len
      if rest.length < tlv_len then .error .tlvSectionOutOfRange
      else
        match TLV.vec_from_bytes (rest.take tlv_len) with
        | .error e => .error e
        | .ok tlvs => .ok { header_no_tlv := header_no_tlv, tlvs := tlvs }

/-- struct PacketMaker: source id, sequence counter and the static TLV list. -/
structure PacketMaker where
  srcid : Nat
  seqno : Nat
  tlvs : List TLV
deriving DecidableEq

/-- PacketMaker::new: the counter starts at 0. -/
def PacketMaker.new (srcid : Nat) (tlvs : List TLV) : PacketMaker :=
  { srcid := srcid, seqno := 0, tlvs := tlvs }

/-- PacketMaker::make, in state-passing style: the first component is the
produced buffer or the error, the second the assembler afterwards.  The
source checks the payload length (u16 conversion) before the header length
(u8 conversion), writes fixed header, static TLVs and payload into one
buffer, and only then increments seqno (u32, so modulo 2^32); on either
failure the state is left untouched. -/
def PacketMaker.make (m : PacketMaker) (payload : List Nat) :
    Except PktError (List Nat) × PacketMaker :=
  let len_tlvs := (m.tlvs.map TLV.len).sum
  let headerlength := len_tlvs + HeaderNoTLV.len
  if payload.length ≤ 65535 then
    if headerlength ≤ 255 then
      (.ok (HeaderNoTLV.as_bytes
              { version := HEADER_VERSION, headerlength := headerlength,
                payloadlength := payload.length, magic := HEADER_MAGIC,
                srcid := m.srcid, seqno := m.seqno } ++
            (m.tlvs.map TLV.write_to).flatten ++ payload),
       { m with seqno := (m.seqno + 1) % 0x100000000 })
    else (.error .headerLengthOverflow, m)
  else (.error .payloadLengthOverflow, m)

/-- Representable TLV payloads: each numeric payload fits the machine width
of the corresponding Rust variant field. -/
def TLV.WFb : TLV → Bool
  | .Timestamp x => x < 0x1000000000000
  | .Null => true
  | .Payloadshape a b c => a < 0x10000 && b < 0x10000 && c < 0x10000
  | .ChannelOffset x => x < 0x100000000
  | .PayloadLabel6Char c0 c1 c2 c3 c4 c5 =>
      c0 < 0x100 && c1 < 0x100 && c2 < 0x100 && c3 < 0x100 && c4 < 0x100 && c5 < 0x100

/-- Valid Header: every fixed field fits its machine width, every TLV payload
is representable, and the recomputed header length fits the one-byte field. -/
def Header.WFb (h : Header) : Bool :=
  h.header_no_tlv.version < 0x100 &&
  h.header_no_tlv.payloadlength < 0x10000 &&
  h.header_no_tlv.magic < 0x100000000 &&
  h.header_no_tlv.srcid < 0x100000000 &&
  h.header_no_tlv.seqno < 0x100000000 &&
  h.tlvs.all TLV.WFb &&
  h.len ≤ 255

example : TLV.write_to (.Timestamp 3) = [0x11, 1, 0, 0, 0, 0, 0, 3] := rfl

example : TLV.write_to (.Payloadshape 0 8 0) = [0x22, 1, 0, 0, 0, 8, 0, 0] := rfl

example : TLV.write_to .Null = [0x00, 1, 0, 0, 0, 0, 0, 0] := rfl

example : TLV.write_to (.ChannelOffset 16) = [0x23, 1, 0, 0, 0, 0, 0, 16] := rfl

example : HeaderNoTLV.as_bytes ⟨1, 0, 0, HEADER_MAGIC, 0, 0⟩ =
    [1, 0, 0, 0, 0x81, 0x0b, 0, 0xff, 0, 0, 0, 0, 0, 0, 0, 0] := rfl

example : Header.as_bytes ⟨⟨1, 0, 0, HEADER_MAGIC, 0, 0⟩,
    [.Timestamp 3, .Null, .Payloadshape 0 8 0]⟩ =
    .ok [1, 40, 0, 0, 129, 11, 0, 255, 0, 0, 0, 0, 0, 0, 0, 0,
         17, 1, 0, 0, 0, 0, 0, 3, 0, 1, 0, 0, 0, 0, 0, 0,
         34, 1, 0, 0, 0, 8, 0, 0] := rfl

theorem tlv_write_to_length (t : TLV) : (TLV.write_to t).length = 8 := by
  cases t <;> rfl

theorem tlv_len_eq (t : TLV) : TLV.len t = 8 := by
  cases t <;> rfl

theorem flatten_write_to_length (ts : List TLV) :
    ((ts.map TLV.write_to).flatten).length = (ts.map TLV.len).sum := by
  induction ts with
  | nil => rfl
  | cons t ts ih =>
      simp only [List.map_cons, List.flatten_cons, List.length_append, List.sum_cons,
        tlv_write_to_length, tlv_len_eq, ih]

theorem try_from_bytes_short (buf : List Nat) (h : buf.length < 8) :
    TLV.try_from_bytes buf = .ok (none, buf) := by
  match buf with
  | [] => rfl
  | [_] => rfl
  | [_, _] => rfl
  | [_, _, _] => rfl
  | [_, _, _, _] => rfl
  | [_, _, _, _, _] => rfl
  | [_, _, _, _, _, _] => rfl
  | [_, _, _, _, _, _, _] => rfl
  | _ :: _ :: _ :: _ :: _ :: _ :: _ :: _ :: _ =>
      simp only [List.length_cons] at h; omega

theorem tlv_round_trip_aux (t : TLV) (more : List Nat) (h : TLV.WFb t = true) :
    TLV.try_from_bytes (t.write_to ++ more) = .ok (some t, more) := by
  cases t with
  | Timestamp x =>
      simp only [TLV.WFb, decide_eq_true_eq] at h
      simp [TLV.write_to, TLV.tag, TLV.len8bytes, be48, TLV.try_from_bytes]
      omega
  | Null => rfl
  | Payloadshape a b c =>
      simp only [TLV.WFb, Bool.and_eq_true, decide_eq_true_eq] at h
      simp [TLV.write_to, TLV.tag, TLV.len8bytes, be16, TLV.try_from_bytes]
      omega
  | ChannelOffset x =>
      simp only [TLV.WFb, decide_eq_true_eq] at h
      simp [TLV.write_to, TLV.tag, TLV.len8bytes, be32, TLV.try_from_bytes]
      omega
  | PayloadLabel6Char c0 c1 c2 c3 c4 c5 =>
      simp [TLV.write_to, TLV.tag, TLV.len8bytes, TLV.try_from_bytes]

theorem vec_round_trip_aux (ts : List TLV) (h : ts.all TLV.WFb = true) :
    TLV.vec_from_bytes ((ts.map TLV.write_to).flatten) = .ok ts := by
  induction ts with
  | nil => rfl
  | cons t ts ih =>
      simp only [List.all_cons, Bool.and_eq_true] at h
      have hstep := tlv_round_trip_aux t ((ts.map TLV.write_to).flatten) h.1
      have hrec := ih h.2
      rw [List.map_cons, List.flatten_cons]
      cases t <;>
        simp_all [TLV.write_to, TLV.tag, TLV.len8bytes, be48, be16, be32,
          TLV.vec_from_bytes]

theorem try_error_shape {buf : List Nat} {e : PktError}
    (h : TLV.try_from_bytes buf = .error e) :
    (∃ tg, e = .unknownTlvTag tg) ∨ e = .unsupportedTlvLength := by
  match buf with
  | [] | [_] | [_, _] | [_, _, _] | [_, _, _, _] | [_, _, _, _, _]
  | [_, _, _, _, _, _] | [_, _, _, _, _, _, _] =>
      simp [TLV.try_from_bytes] at h
  | b0 :: b1 :: b2 :: b3 :: b4 :: b5 :: b6 :: b7 :: rest =>
      simp only [TLV.try_from_bytes] at h
      split_ifs at h <;> simp only [Except.error.injEq] at h
      · exact Or.inr h.symm
      · exact Or.inl ⟨b0, h.symm⟩

theorem vec_error_shape_aux (n : Nat) :
    ∀ buf : List Nat, buf.length ≤ n → ∀ e : PktError,
      TLV.vec_from_bytes buf = .error e →
      (∃ tg, e = .unknownTlvTag tg) ∨ e = .unsupportedTlvLength := by
  induction n with
  | zero =>
      intro buf hlen e h
      match buf with
      | [] => simp [TLV.vec_from_bytes] at h
      | _ :: _ => simp at hlen
  | succ n ih =>
      intro buf hlen e h
      match buf with
      | [] | [_] | [_, _] | [_, _, _] | [_, _, _, _] | [_, _, _, _, _]
      | [_, _, _, _, _, _] | [_, _, _, _, _, _, _] =>
          simp [TLV.vec_from_bytes] at h
      | b0 :: b1 :: b2 :: b3 :: b4 :: b5 :: b6 :: b7 :: rest =>
          simp only [TLV.vec_from_bytes] at h
          cases htry : TLV.try_from_bytes (b0 :: b1 :: b2 :: b3 :: b4 :: b5 :: b6 :: b7 :: rest) with
          | error e2 =>
              rw [htry] at h
              simp only [Except.error.injEq] at h
              subst h
              exact try_error_shape htry
          | ok p =>
              obtain ⟨o, r⟩ := p
              rw [htry] at h
              cases o with
              | none => simp at h
              | some t =>
                  cases hrec : TLV.vec_from_bytes rest with
                  | error e3 =>
                      rw [hrec] at h
                      simp only [Except.error.injEq] at h
                      subst h
                      refine ih rest ?_ e3 hrec
                      simp only [List.length_cons] at hlen
                      omega
                  | ok v => rw [hrec] at h; simp at h

theorem vec_error_shape {buf : List Nat} {e : PktError}
    (h : TLV.vec_from_bytes buf = .error e) :
    (∃ tg, e = .unknownTlvTag tg) ∨ e = .unsupportedTlvLength :=
  vec_error_shape_aux buf.length buf le_rfl e h

/-- C7: every defined TLV variant (Timestamp, Null, PayloadShape,
ChannelOffset, PayloadLabel) encodes to exactly 8 bytes: the tag byte, the
length-in-8-byte-units byte (always 1), and 6 value bytes. -/
theorem tlv_fixed_size (t : TLV) :
    (TLV.write_to t).length = 8 ∧ (TLV.write_to t).take 2 = [t.tag, 1] := by
  cases t <;> exact ⟨rfl, rfl⟩

/-- C8: Timestamp 48-bit truncation: encoding Timestamp x writes only the
low 48 bits of x (the encoding of x and of x mod 2^48 coincide), decoding a
Timestamp slot always yields a value below 2^48, and the round trip maps
Timestamp x to Timestamp (x mod 2^48). -/
theorem timestamp_truncation (x v : Nat) (buf rest : List Nat)
    (hdec : TLV.try_from_bytes buf = .ok (some (.Timestamp v), rest)) :
    TLV.write_to (.Timestamp x) = TLV.write_to (.Timestamp (x % 2 ^ 48))
    ∧ TLV.try_from_bytes (TLV.write_to (.Timestamp x)) =
        .ok (some (.Timestamp (x % 2 ^ 48)), [])
    ∧ v < 2 ^ 48 := by
  refine ⟨?_, ?_, ?_⟩
  · simp only [TLV.write_to, TLV.tag, TLV.len8bytes, be48, List.cons.injEq,
      List.cons_append, List.nil_append, and_true, true_and]
    omega
  · have hwf : TLV.WFb (.Timestamp (x % 2 ^ 48)) = true := by
      simp only [TLV.WFb, decide_eq_true_eq]
      omega
    have h1 : TLV.write_to (.Timestamp x) = TLV.write_to (.Timestamp (x % 2 ^ 48)) := by
      simp only [TLV.write_to, TLV.tag, TLV.len8bytes, be48, List.cons.injEq,
        List.cons_append, List.nil_append, and_true, true_and]
      omega
    have h2 := tlv_round_trip_aux (.Timestamp (x % 2 ^ 48)) [] hwf
    rw [List.append_nil] at h2
    rw [h1, h2]
  · match buf with
    | [] | [_] | [_, _] | [_, _, _] | [_, _, _, _] | [_, _, _, _, _]
    | [_, _, _, _, _, _] | [_, _, _, _, _, _, _] =>
        simp [TLV.try_from_bytes] at hdec
    | a0 :: a1 :: a2 :: a3 :: a4 :: a5 :: a6 :: a7 :: r =>
        simp only [TLV.try_from_bytes] at hdec
        split_ifs at hdec <;> simp_all
        omega

/-- C8 witness. -/
theorem timestamp_truncation_witness :
    TLV.write_to (.Timestamp (2 ^ 48 + 7)) = TLV.write_to (.Timestamp 7)
    ∧ TLV.try_from_bytes (TLV.write_to (.Timestamp (2 ^ 48 + 7))) =
        .ok (some (.Timestamp 7), [])
    ∧ 3 < 2 ^ 48 := by
  have h := timestamp_truncation (2 ^ 48 + 7) 3 [0x11, 1, 0, 0, 0, 0, 0, 3] []
    (by rfl)
  simpa using h

/-- C9: for an 8-byte slot whose tag is 0x00, 0x11, 0x22 or 0x23, the decode
result does not depend on the length-unit byte at index 1, and decoding
succeeds consuming exactly the 8-byte slot. -/
theorem lenbyte_ignored (b0 b1 b1' b2 b3 b4 b5 b6 b7 : Nat) (rest : List Nat)
    (htag : b0 = 0x00 ∨ b0 = 0x11 ∨ b0 = 0x22 ∨ b0 = 0x23) :
    TLV.try_from_bytes (b0 :: b1 :: b2 :: b3 :: b4 :: b5 :: b6 :: b7 :: rest)
      = TLV.try_from_bytes (b0 :: b1' :: b2 :: b3 :: b4 :: b5 :: b6 :: b7 :: rest)
    ∧ ∃ t : TLV, TLV.try_from_bytes (b0 :: b1 :: b2 :: b3 :: b4 :: b5 :: b6 :: b7 :: rest)
        = .ok (some t, rest) := by
  refine ⟨?_, ?_⟩
  · rcases htag with rfl | rfl | rfl | rfl <;> simp [TLV.try_from_bytes]
    omega
  · rcases htag with rfl | rfl | rfl | rfl <;> exact ⟨_, rfl⟩

/-- C9 witness. -/
theorem lenbyte_ignored_witness :
    TLV.try_from_bytes (0x11 :: 5 :: 0 :: 0 :: 0 :: 0 :: 0 :: 9 :: [])
      = TLV.try_from_bytes (0x11 :: 200 :: 0 :: 0 :: 0 :: 0 :: 0 :: 9 :: [])
    ∧ ∃ t : TLV, TLV.try_from_bytes (0x11 :: 5 :: 0 :: 0 :: 0 :: 0 :: 0 :: 9 :: [])
        = .ok (some t, []) :=
  lenbyte_ignored 0x11 5 200 0 0 0 0 0 9 [] (Or.inr (Or.inl rfl))

/-- C3: TLV decode taxonomy: on a buffer shorter than 8 bytes the result is
none with the untouched buffer; an 8-byte slot never yields none; it fails
with unknownTlvTag exactly when the tag byte is none of 0x00, 0x11, 0x22,
0x23, 0x29, and with unsupportedTlvLength exactly when the tag is 0x29 and
the length-unit byte is not 1; every failure is a value handed to the
caller. -/
theorem tlv_decode_taxonomy (b0 b1 b2 b3 b4 b5 b6 b7 : Nat) (buf rest : List Nat)
    (hshort : buf.length < 8) :
    TLV.try_from_bytes buf = .ok (none, buf)
    ∧ (∀ r : List Nat,
        TLV.try_from_bytes (b0 :: b1 :: b2 :: b3 :: b4 :: b5 :: b6 :: b7 :: rest)
          ≠ .ok (none, r))
    ∧ (TLV.try_from_bytes (b0 :: b1 :: b2 :: b3 :: b4 :: b5 :: b6 :: b7 :: rest)
          = .error (.unknownTlvTag b0)
        ↔ b0 ≠ 0x00 ∧ b0 ≠ 0x11 ∧ b0 ≠ 0x22 ∧ b0 ≠ 0x23 ∧ b0 ≠ 0x29)
    ∧ (TLV.try_from_bytes (b0 :: b1 :: b2 :: b3 :: b4 :: b5 :: b6 :: b7 :: rest)
          = .error .unsupportedTlvLength
        ↔ b0 = 0x29 ∧ b1 ≠ 1) := by
  refine ⟨try_from_bytes_short buf hshort, ?_, ?_, ?_⟩
  · intro r
    simp only [TLV.try_from_bytes]
    split_ifs <;> simp
  · simp only [TLV.try_from_bytes]
    split_ifs <;> simp_all
  · simp only [TLV.try_from_bytes]
    split_ifs <;> simp_all

/-- C3 witness. -/
theorem tlv_decode_taxonomy_witness :
    TLV.try_from_bytes [1, 2, 3] = .ok (none, [1, 2, 3])
    ∧ (∀ r : List Nat,
        TLV.try_from_bytes (0x77 :: 1 :: 0 :: 0 :: 0 :: 0 :: 0 :: 0 :: [])
          ≠ .ok (none, r))
    ∧ (TLV.try_from_bytes (0x77 :: 1 :: 0 :: 0 :: 0 :: 0 :: 0 :: 0 :: [])
          = .error (.unknownTlvTag 0x77)
        ↔ (0x77 : Nat) ≠ 0x00 ∧ (0x77 : Nat) ≠ 0x11 ∧ (0x77 : Nat) ≠ 0x22 ∧
          (0x77 : Nat) ≠ 0x23 ∧ (0x77 : Nat) ≠ 0x29)
    ∧ (TLV.try_from_bytes (0x77 :: 1 :: 0 :: 0 :: 0 :: 0 :: 0 :: 0 :: [])
          = .error .unsupportedTlvLength
        ↔ (0x77 : Nat) = 0x29 ∧ (1 : Nat) ≠ 1) :=
  tlv_decode_taxonomy 0x77 1 0 0 0 0 0 0 [1, 2, 3] [] (by decide)

/-- C5: Header encode recomputes the headerlength byte as 16 plus the sum of
the TLV encoded lengths of the current TLV list (the stored headerlength
field never influences the output), writes the fixed-header fields followed
by each TLV in list order, and fails with headerLengthOverflow when the
computed length exceeds 255. -/
theorem header_write_spec (h : Header) (hl2 : Nat) :
    Header.write_to { h with header_no_tlv := { h.header_no_tlv with headerlength := hl2 } }
      = Header.write_to h
    ∧ (h.len ≤ 255 →
        Header.write_to h
          = .ok (HeaderNoTLV.as_bytes { h.header_no_tlv with headerlength := h.len }
                 ++ (h.tlvs.map TLV.write_to).flatten)
        ∧ ∀ out : List Nat, Header.write_to h = .ok out → out.length = h.len)
    ∧ (255 < h.len → Header.write_to h = .error .headerLengthOverflow) := by
  obtain ⟨⟨v, hl, p, mg, s, q⟩, tlvs⟩ := h
  refine ⟨rfl, ?_, ?_⟩
  · intro hle
    have hok : Header.write_to ⟨⟨v, hl, p, mg, s, q⟩, tlvs⟩
        = .ok (HeaderNoTLV.as_bytes
                { headerlength := Header.len ⟨⟨v, hl, p, mg, s, q⟩, tlvs⟩,
                  version := v, payloadlength := p, magic := mg, srcid := s, seqno := q }
               ++ (tlvs.map TLV.write_to).flatten) := by
      simp only [Header.write_to]
      rw [if_pos hle]
    refine ⟨hok, ?_⟩
    intro out hout
    rw [hok] at hout
    simp only [Except.ok.injEq] at hout
    subst hout
    simp only [List.length_append, HeaderNoTLV.as_bytes, be16, be32,
      List.cons_append, List.nil_append, List.length_cons, List.length_nil,
      flatten_write_to_length, Header.len, HeaderNoTLV.len]
  · intro hgt
    simp only [Header.write_to]
    rw [if_neg (by omega)]

/-- C5 witness. -/
theorem header_write_spec_witness :
    Header.write_to ⟨⟨1, 99, 0, 0x810b00ff, 0, 0⟩, [TLV.Null]⟩
      = Header.write_to ⟨⟨1, 7, 0, 0x810b00ff, 0, 0⟩, [TLV.Null]⟩
    ∧ Header.write_to ⟨⟨1, 7, 0, 0x810b00ff, 0, 0⟩, [TLV.Null]⟩
        = .ok (HeaderNoTLV.as_bytes ⟨1, 24, 0, 0x810b00ff, 0, 0⟩
               ++ ([TLV.Null].map TLV.write_to).flatten) := by
  have h := header_write_spec ⟨⟨1, 7, 0, 0x810b00ff, 0, 0⟩, [TLV.Null]⟩ 99
  exact ⟨h.1, (h.2.1 (by decide)).1⟩

/-- C4: Header read: the 16-byte fixed header is decoded first; a declared
headerlength below 16 fails with headerLengthUnderflow; otherwise exactly
headerlength - 16 bytes after the fixed header are decoded as the TLV
sequence, and bytes beyond them are not consumed as part of the header. -/
theorem header_read_spec (v hl p0 p1 m0 m1 m2 m3 s0 s1 s2 s3 q0 q1 q2 q3 : Nat)
    (rest : List Nat) :
    (hl < 16 →
      Header.from_bytes (v :: hl :: p0 :: p1 :: m0 :: m1 :: m2 :: m3 :: s0 :: s1 ::
          s2 :: s3 :: q0 :: q1 :: q2 :: q3 :: rest) = .error .headerLengthUnderflow)
    ∧ (16 ≤ hl → hl - 16 ≤ rest.length →
      Header.from_bytes (v :: hl :: p0 :: p1 :: m0 :: m1 :: m2 :: m3 :: s0 :: s1 ::
          s2 :: s3 :: q0 :: q1 :: q2 :: q3 :: rest)
        = match TLV.vec_from_bytes (rest.take (hl - 16)) with
          | .error e => .error e
          | .ok tlvs =>
              .ok { header_no_tlv :=
                      ⟨v, hl, p0 * 0x100 + p1,
                       m0 * 0x1000000 + m1 * 0x10000 + m2 * 0x100 + m3,
                       s0 * 0x1000000 + s1 * 0x10000 + s2 * 0x100 + s3,
                       q0 * 0x1000000 + q1 * 0x10000 + q2 * 0x100 + q3⟩,
                    tlvs := tlvs }) := by
  constructor
  · intro h1
    simp only [Header.from_bytes, HeaderNoTLV.from_bytes, HeaderNoTLV.len]
    rw [if_pos h1]
  · intro h2 h3
    simp only [Header.from_bytes, HeaderNoTLV.from_bytes, HeaderNoTLV.len]
    rw [if_neg (by omega), if_neg (by omega)]

/-- C4 witness. -/
theorem header_read_spec_witness :
    Header.from_bytes (1 :: 5 :: 0 :: 0 :: 0x81 :: 0x0b :: 0 :: 0xff :: 0 :: 0 :: 0 :: 0 ::
        0 :: 0 :: 0 :: 0 :: []) = .error .headerLengthUnderflow
    ∧ Header.from_bytes (1 :: 24 :: 0 :: 0 :: 0x81 :: 0x0b :: 0 :: 0xff :: 0 :: 0 :: 0 :: 0 ::
        0 :: 0 :: 0 :: 0 :: (0 :: 1 :: 0 :: 0 :: 0 :: 0 :: 0 :: 0 :: [171]))
        = .ok ⟨⟨1, 24, 0, 0x810b00ff, 0, 0⟩, [TLV.Null]⟩ := by
  have h1 := (header_read_spec 1 5 0 0 0x81 0x0b 0 0xff 0 0 0 0 0 0 0 0 []).1 (by decide)
  have h2 := (header_read_spec 1 24 0 0 0x81 0x0b 0 0xff 0 0 0 0 0 0 0 0
      (0 :: 1 :: 0 :: 0 :: 0 :: 0 :: 0 :: 0 :: [171])).2 (by decide) (by decide)
  refine ⟨h1, ?_⟩
  rw [h2]
  rfl

/-- C10: a buffer holding at least 16 bytes but fewer than its declared
headerlength bytes in total never yields a Header: the TLV-section slice is
out of range and the read fails; when the buffer holds at least headerlength
bytes that error branch is unreachable. -/
theorem header_truncated_read (v hl p0 p1 m0 m1 m2 m3 s0 s1 s2 s3 q0 q1 q2 q3 : Nat)
    (rest rest2 : List Nat) (h16 : 16 ≤ hl)
    (hshort : 16 + rest.length < hl) (hlong : hl ≤ 16 + rest2.length) :
    Header.from_bytes (v :: hl :: p0 :: p1 :: m0 :: m1 :: m2 :: m3 :: s0 :: s1 ::
        s2 :: s3 :: q0 :: q1 :: q2 :: q3 :: rest) = .error .tlvSectionOutOfRange
    ∧ Header.from_bytes (v :: hl :: p0 :: p1 :: m0 :: m1 :: m2 :: m3 :: s0 :: s1 ::
        s2 :: s3 :: q0 :: q1 :: q2 :: q3 :: rest2) ≠ .error .tlvSectionOutOfRange := by
  constructor
  · simp only [Header.from_bytes, HeaderNoTLV.from_bytes, HeaderNoTLV.len]
    rw [if_neg (by omega), if_pos (by omega)]
  · simp only [Header.from_bytes, HeaderNoTLV.from_bytes, HeaderNoTLV.len]
    rw [if_neg (by omega), if_neg (by omega)]
    cases hvec : TLV.vec_from_bytes (rest2.take (hl - 16)) with
    | error e =>
        rcases vec_error_shape hvec with ⟨tg, rfl⟩ | rfl <;> simp
    | ok tlvs => simp

/-- C10 witness. -/
theorem header_truncated_read_witness :
    Header.from_bytes (1 :: 24 :: 0 :: 0 :: 0x81 :: 0x0b :: 0 :: 0xff :: 0 :: 0 :: 0 :: 0 ::
        0 :: 0 :: 0 :: 0 :: [0, 1, 0]) = .error .tlvSectionOutOfRange
    ∧ Header.from_bytes (1 :: 24 :: 0 :: 0 :: 0x81 :: 0x0b :: 0 :: 0xff :: 0 :: 0 :: 0 :: 0 ::
        0 :: 0 :: 0 :: 0 :: [0, 1, 0, 0, 0, 0, 0, 0]) ≠ .error .tlvSectionOutOfRange :=
  header_truncated_read 1 24 0 0 0x81 0x0b 0 0xff 0 0 0 0 0 0 0 0
    [0, 1, 0] [0, 1, 0, 0, 0, 0, 0, 0] (by decide) (by decide) (by decide)

/-- C1: Header round trip: for every valid Header (fixed fields and TLV
payloads representable, computed length at most 255), decoding the bytes
produced by encoding yields the header back, with headerlength normalized to
the recomputed value 16 plus the sum of the TLV lengths. -/
theorem header_round_trip (h : Header) (hwf : Header.WFb h = true) :
    ∃ out : List Nat, Header.as_bytes h = .ok out
      ∧ Header.from_bytes out =
          .ok { h with header_no_tlv := { h.header_no_tlv with headerlength := h.len } } := by
  obtain ⟨⟨v, hl, p, mg, s, q⟩, tlvs⟩ := h
  simp only [Header.WFb, Bool.and_eq_true, decide_eq_true_eq] at hwf
  obtain ⟨⟨⟨⟨⟨⟨hv, hp⟩, hm⟩, hs⟩, hq⟩, htlv⟩, hlen⟩ := hwf
  have hout : Header.as_bytes ⟨⟨v, hl, p, mg, s, q⟩, tlvs⟩
      = .ok (HeaderNoTLV.as_bytes
               ⟨v, Header.len ⟨⟨v, hl, p, mg, s, q⟩, tlvs⟩, p, mg, s, q⟩
             ++ (tlvs.map TLV.write_to).flatten) := by
    simp only [Header.as_bytes, Header.write_to]
    rw [if_pos hlen]
  refine ⟨_, hout, ?_⟩
  have hflat : ((tlvs.map TLV.write_to).flatten).length = (tlvs.map TLV.len).sum :=
    flatten_write_to_length tlvs
  have hL : Header.len ⟨⟨v, hl, p, mg, s, q⟩, tlvs⟩ = (tlvs.map TLV.len).sum + 16 := rfl
  simp only [HeaderNoTLV.as_bytes, be16, be32, List.cons_append, List.nil_append]
  simp only [Header.from_bytes, HeaderNoTLV.from_bytes, HeaderNoTLV.len]
  rw [if_neg (by omega), if_neg (by omega)]
  rw [show Header.len ⟨⟨v, hl, p, mg, s, q⟩, tlvs⟩ - 16
        = ((tlvs.map TLV.write_to).flatten).length from by omega]
  rw [List.take_length, vec_round_trip_aux tlvs htlv]
  have ep : p / 0x100 % 0x100 * 0x100 + p % 0x100 = p := by omega
  have em : mg / 0x1000000 % 0x100 * 0x1000000 + mg / 0x10000 % 0x100 * 0x10000 +
      mg / 0x100 % 0x100 * 0x100 + mg % 0x100 = mg := by omega
  have es : s / 0x1000000 % 0x100 * 0x1000000 + s / 0x10000 % 0x100 * 0x10000 +
      s / 0x100 % 0x100 * 0x100 + s % 0x100 = s := by omega
  have eq2 : q / 0x1000000 % 0x100 * 0x1000000 + q / 0x10000 % 0x100 * 0x10000 +
      q / 0x100 % 0x100 * 0x100 + q % 0x100 = q := by omega
  rw [ep, em, es, eq2]

/-- C1 witness: the header of the repository's own encode test. -/
theorem header_round_trip_witness :
    ∃ out : List Nat,
      Header.as_bytes ⟨⟨1, 0, 0, 0x810b00ff, 0, 0⟩,
        [.Timestamp 3, .Null, .Payloadshape 0 8 0]⟩ = .ok out
      ∧ Header.from_bytes out =
          .ok ⟨⟨1, 40, 0, 0x810b00ff, 0, 0⟩,
            [.Timestamp 3, .Null, .Payloadshape 0 8 0]⟩ :=
  header_round_trip ⟨⟨1, 0, 0, 0x810b00ff, 0, 0⟩,
    [.Timestamp 3, .Null, .Payloadshape 0 8 0]⟩ (by decide)

/-- C2: one successful make call advances seqno from n to (n + 1) mod 2^32
and keeps srcid and the static TLV list; a failed call leaves the assembler
exactly as it was. -/
theorem seqno_step (m : PacketMaker) (payload : List Nat) :
    (∀ out : List Nat, (PacketMaker.make m payload).1 = .ok out →
      (PacketMaker.make m payload).2 =
        { srcid := m.srcid, seqno := (m.seqno + 1) % 2 ^ 32, tlvs := m.tlvs })
    ∧ (∀ e : PktError, (PacketMaker.make m payload).1 = .error e →
      (PacketMaker.make m payload).2 = m) := by
  obtain ⟨sid, sq, ts⟩ := m
  constructor
  · intro out hout
    simp only [PacketMaker.make] at hout ⊢
    split_ifs at hout ⊢
    simp_all
  · intro e he
    simp only [PacketMaker.make] at he ⊢
    split_ifs at he ⊢ <;> simp_all

/-- C2 witness. -/
theorem seqno_step_witness :
    (PacketMaker.make ⟨7, 41, []⟩ [255]).2 = ⟨7, 42, []⟩
    ∧ (PacketMaker.make ⟨7, 41, List.replicate 30 TLV.Null⟩ []).2
        = ⟨7, 41, List.replicate 30 TLV.Null⟩ :=
  ⟨(seqno_step ⟨7, 41, []⟩ [255]).1 _ rfl,
   (seqno_step ⟨7, 41, List.replicate 30 TLV.Null⟩ []).2 .headerLengthOverflow rfl⟩

/-- C6 counterexample: an assembler whose static TLV list makes the computed
header length exceed 255 (here 30 Null TLVs, so 16 + 240 = 256) fails even
on a payload of at most 65535 bytes, so the claim does not hold for every
assembler. -/
theorem make_layout_cex :
    (PacketMaker.make ⟨0, 0, List.replicate 30 TLV.Null⟩ []).1
      = .error .headerLengthOverflow
    ∧ List.length ([] : List Nat) ≤ 65535 :=
  ⟨rfl, by decide⟩

/-- C6 amended: for every assembler whose static TLV list yields a computed
header length of at most 255 and every payload of at most 65535 bytes, make
returns one buffer of exactly headerlength + payload-length bytes: the 16
fixed-header bytes (version 1, magic 0x810b00ff, current srcid and seqno,
payloadlength equal to the payload byte count, headerlength computed from
the static TLV list), then the static TLVs in order, then the raw payload;
and for every assembler a payload longer than 65535 bytes fails with
payloadLengthOverflow. -/
theorem make_layout (m m2 : PacketMaker) (payload payload2 : List Nat)
    (hp : payload.length ≤ 65535)
    (hh : (m.tlvs.map TLV.len).sum + 16 ≤ 255)
    (hp2 : 65535 < payload2.length) :
    (PacketMaker.make m payload).1
      = .ok (HeaderNoTLV.as_bytes
               { version := 1, headerlength := (m.tlvs.map TLV.len).sum + 16,
                 payloadlength := payload.length, magic := 0x810b00ff,
                 srcid := m.srcid, seqno := m.seqno }
             ++ (m.tlvs.map TLV.write_to).flatten ++ payload)
    ∧ (∀ out : List Nat, (PacketMaker.make m payload).1 = .ok out →
        out.length = ((m.tlvs.map TLV.len).sum + 16) + payload.length)
    ∧ (PacketMaker.make m2 payload2).1 = .error .payloadLengthOverflow := by
  have hok : (PacketMaker.make m payload).1
      = .ok (HeaderNoTLV.as_bytes
               { version := 1, headerlength := (m.tlvs.map TLV.len).sum + 16,
                 payloadlength := payload.length, magic := 0x810b00ff,
                 srcid := m.srcid, seqno := m.seqno }
             ++ (m.tlvs.map TLV.write_to).flatten ++ payload) := by
    simp only [PacketMaker.make, HeaderNoTLV.len, HEADER_VERSION, HEADER_MAGIC]
    rw [if_pos hp, if_pos (by omega)]
  refine ⟨hok, ?_, ?_⟩
  · intro out hout
    rw [hok] at hout
    simp only [Except.ok.injEq] at hout
    subst hout
    simp only [List.length_append, HeaderNoTLV.as_bytes, be16, be32,
      List.cons_append, List.nil_append, List.length_cons, List.length_nil,
      flatten_write_to_length]
    omega
  · simp only [PacketMaker.make]
    rw [if_neg (by omega)]

/-- C6 witness for the amended claim: the assembler of the repository's demo
(three static TLVs) with one 1-byte payload, and an oversized payload given
to an assembler whose static TLV list itself overflows the header length
(30 Null TLVs), showing the payload check fires for every assembler. -/
theorem make_layout_witness :
    (PacketMaker.make ⟨0, 0, [.Timestamp 3, .Null, .Payloadshape 0 8 0]⟩ [255]).1
      = .ok (HeaderNoTLV.as_bytes ⟨1, 40, 1, 0x810b00ff, 0, 0⟩
             ++ ([TLV.Timestamp 3, TLV.Null, TLV.Payloadshape 0 8 0].map TLV.write_to).flatten
             ++ [255])
    ∧ (∀ out : List Nat,
        (PacketMaker.make ⟨0, 0, [.Timestamp 3, .Null, .Payloadshape 0 8 0]⟩ [255]).1
          = .ok out → out.length = 41)
    ∧ (PacketMaker.make ⟨0, 0, List.replicate 30 TLV.Null⟩
        (List.replicate 65536 0)).1 = .error .payloadLengthOverflow := by
  have h := make_layout ⟨0, 0, [.Timestamp 3, .Null, .Payloadshape 0 8 0]⟩
    ⟨0, 0, List.replicate 30 TLV.Null⟩
    [255] (List.replicate 65536 0) (by decide) (by decide)
    (by rw [List.length_replicate]; decide)
  exact h

end Umux
